import Mathlib

/-!
Verification of the batch orchestration engine in
`src/transform/4_identify_sections.py` (Teal-Insights/nature-finance-rag-api).

The Python module classifies documents into section page ranges via an
external LLM call.  We shallowly embed its pure control-flow core:

* the pydantic data models (`TextPage`, `TextDocument`, `TextPublication`,
  `SectionPageRange`, `Sections`) together with the structural part of
  pydantic validation, over a small JSON value type;
* `process_text` — the per-item task executor: the body's try/except
  (catching network errors, the streaming-response rejection and payload
  validation errors) wrapped in the tenacity retry decorator
  `@retry(stop=stop_after_attempt(3), wait=wait_exponential(multiplier=1, min=4, max=10))`;
* `process_documents_concurrently` — the batch coordinator: load existing
  results, parse publications (dropping malformed ones), compute the
  pending set, gather per-document outcomes, merge successes into the
  store, and report failed identifiers;
* the `asyncio.Semaphore`-guarded task pool, as a labelled transition
  system on task phases with an explicit available-permit counter.

External effects (file I/O, the network call, logging, real time) are
modelled as explicit inputs: the previously persisted store and the raw
input file content are parameters, and the LLM call is an oracle
`TextDocument → Nat → CallResult` giving the outcome of each attempt.
-/

/-- JSON values, the common currency of the input file, the persisted
output file and the LLM response content.  Objects are field lists in
document order; `json.loads` keeps the last occurrence of a duplicated
key, which `lastAssoc` below mirrors. -/
inductive Json where
  | null : Json
  | jbool : Bool → Json
  | jnum : Int → Json
  | jstr : String → Json
  | jarr : List Json → Json
  | jobj : List (String × Json) → Json
deriving Repr

/-- Last binding for a key in an association list (Python dict semantics:
a later duplicate key wins). -/
def lastAssoc {α : Type} : List (String × α) → String → Option α
  | [], _ => none
  | (k', v) :: rest, k =>
    match lastAssoc rest k with
    | some r => some r
    | none => if k' = k then some v else none

/-- Mirrors the pydantic model `TextPage`: a single page from a PDF
document (`page_number`, `text_content`), both fields required. -/
structure TextPage where
  page_number : Int
  text_content : String
deriving Repr, DecidableEq

/-- Mirrors the pydantic model `TextDocument`: `doc_id` required,
`pages` defaulting to the empty list. -/
structure TextDocument where
  doc_id : String
  pages : List TextPage
deriving Repr, DecidableEq

/-- Mirrors the pydantic model `TextPublication`: `pub_id` required,
`documents` defaulting to the empty list. -/
structure TextPublication where
  pub_id : String
  documents : List TextDocument
deriving Repr, DecidableEq

/-- Mirrors the pydantic model `SectionPageRange`: `start_page` and
`end_page`, both required. -/
structure SectionPageRange where
  start_page : Int
  end_page : Int
deriving Repr, DecidableEq

/-- Mirrors the pydantic model `Sections`: the JSON structure expected
from the LLM.  Every one of the eight fields is declared without a
default, so pydantic requires the key to be present, while its value may
be `null`. -/
structure Sections where
  front_matter : Option SectionPageRange
  contents : Option SectionPageRange
  list_of_figures : Option SectionPageRange
  list_of_tables : Option SectionPageRange
  body : Option SectionPageRange
  references : Option SectionPageRange
  end_notes : Option SectionPageRange
  annexes : Option SectionPageRange
deriving Repr, DecidableEq

/-- Field names of `Sections`, in declaration order. -/
def sectionKeys : List String :=
  ["front_matter", "contents", "list_of_figures", "list_of_tables",
   "body", "references", "end_notes", "annexes"]

/-! Structural pydantic validation of the input models.  A required field
must be present with the declared shape; a field with `default_factory=list`
may be absent (yielding `[]`) but must be a list of valid elements when
present; a non-object payload is rejected. -/

/-- Validation of `TextPage` (`TextPage.model_validate` on a JSON value). -/
def validateTextPage (j : Json) : Except String TextPage :=
  match j with
  | .jobj fields =>
    match lastAssoc fields "page_number", lastAssoc fields "text_content" with
    | some (.jnum n), some (.jstr t) => .ok { page_number := n, text_content := t }
    | _, _ => .error "invalid TextPage"
  | _ => .error "TextPage expects an object"

/-- Validation of the `pages` list of a `TextDocument`. -/
def validatePages (j : Json) : Except String (List TextPage) :=
  match j with
  | .jarr items => items.mapM validateTextPage
  | _ => .error "pages expects a list"

/-- Validation of `TextDocument` (`TextDocument.model_validate`). -/
def validateTextDocument (j : Json) : Except String TextDocument :=
  match j with
  | .jobj fields =>
    match lastAssoc fields "doc_id" with
    | some (.jstr i) =>
      match lastAssoc fields "pages" with
      | none => .ok { doc_id := i, pages := [] }
      | some pj => (validatePages pj).map (fun ps => { doc_id := i, pages := ps })
    | _ => .error "doc_id required"
  | _ => .error "TextDocument expects an object"

/-- Validation of the `documents` list of a `TextPublication`. -/
def validateDocuments (j : Json) : Except String (List TextDocument) :=
  match j with
  | .jarr items => items.mapM validateTextDocument
  | _ => .error "documents expects a list"

/-- Validation of `TextPublication` (`TextPublication.model_validate`),
as called per input entry inside the load loop's try/except. -/
def validateTextPublication (j : Json) : Except String TextPublication :=
  match j with
  | .jobj fields =>
    match lastAssoc fields "pub_id" with
    | some (.jstr i) =>
      match lastAssoc fields "documents" with
      | none => .ok { pub_id := i, documents := [] }
      | some dj => (validateDocuments dj).map (fun ds => { pub_id := i, documents := ds })
    | _ => .error "pub_id required"
  | _ => .error "TextPublication expects an object"

/-- Validation of `SectionPageRange` on a JSON value. -/
def validateSectionPageRange (j : Json) : Except String SectionPageRange :=
  match j with
  | .jobj fields =>
    match lastAssoc fields "start_page", lastAssoc fields "end_page" with
    | some (.jnum s), some (.jnum e) => .ok { start_page := s, end_page := e }
    | _, _ => .error "invalid SectionPageRange"
  | _ => .error "SectionPageRange expects an object"

/-- Validation of one `Sections` field: an absent key is an error (the
field has no default), an explicit `null` is accepted as `None`, anything
else must be a valid `SectionPageRange`. -/
def validateOptRange (o : Option Json) : Except String (Option SectionPageRange) :=
  match o with
  | none => .error "Field required"
  | some .null => .ok none
  | some j => (validateSectionPageRange j).map some

/-- Validation of the eight declared fields of `Sections` against an
object's field list; the model instance exists exactly when all eight
fields validate. -/
def sectionsValidateFields (fields : List (String × Json)) : Except String Sections :=
  match validateOptRange (lastAssoc fields "front_matter"),
          validateOptRange (lastAssoc fields "contents"),
          validateOptRange (lastAssoc fields "list_of_figures"),
          validateOptRange (lastAssoc fields "list_of_tables"),
          validateOptRange (lastAssoc fields "body"),
          validateOptRange (lastAssoc fields "references"),
          validateOptRange (lastAssoc fields "end_notes"),
          validateOptRange (lastAssoc fields "annexes") with
    | .ok fm, .ok c, .ok lof, .ok lot, .ok b, .ok r, .ok en, .ok ax =>
      .ok { front_matter := fm, contents := c, list_of_figures := lof,
            list_of_tables := lot, body := b, references := r,
            end_notes := en, annexes := ax }
    | _, _, _, _, _, _, _, _ => .error "Sections validation failed"

/-- Validation of `Sections` on a JSON value: a non-object payload is
rejected, otherwise every declared field is validated. -/
def sectionsValidate (j : Json) : Except String Sections :=
  match j with
  | .jobj fields => sectionsValidateFields fields
  | _ => .error "Sections expects an object"

/-- Content string of the LLM reply, as seen by
`Sections.model_validate_json`: either not parseable as JSON at all, or a
JSON value. -/
inductive LLMContent where
  | notJson : String → LLMContent
  | json : Json → LLMContent
deriving Repr

/-- Mirrors `Sections.model_validate_json` applied to the reply content:
unparseable text is a validation error, otherwise validate the value. -/
def sections_model_validate_json (c : LLMContent) : Except String Sections :=
  match c with
  | .notJson _ => .error "Invalid JSON"
  | .json j => sectionsValidate j

/-- Value produced by one `acompletion` call when it returns: either a
`CustomStreamWrapper` or a `ModelResponse` carrying the reply content. -/
inductive LLMResponse where
  | stream : LLMResponse
  | modelResponse : LLMContent → LLMResponse
deriving Repr

/-- Outcome of one attempt of the external call: `exn` when `acompletion`
raises (network error and the like), `ok` when it returns a response. -/
inductive CallResult where
  | exn : String → CallResult
  | ok : LLMResponse → CallResult
deriving Repr

/-- Serialization `SectionPageRange.model_dump` of one page range. -/
def SectionPageRange.dump (r : SectionPageRange) : Json :=
  .jobj [("start_page", .jnum r.start_page), ("end_page", .jnum r.end_page)]

/-- Serialization of one optional page range inside `model_dump`. -/
def optRangeDump (o : Option SectionPageRange) : Json :=
  match o with
  | none => .null
  | some r => r.dump

/-- Serialization `Sections.model_dump` of a validated result, as stored
into `headings_data`. -/
def Sections.dump (s : Sections) : Json :=
  .jobj [("front_matter", optRangeDump s.front_matter),
         ("contents", optRangeDump s.contents),
         ("list_of_figures", optRangeDump s.list_of_figures),
         ("list_of_tables", optRangeDump s.list_of_tables),
         ("body", optRangeDump s.body),
         ("references", optRangeDump s.references),
         ("end_notes", optRangeDump s.end_notes),
         ("annexes", optRangeDump s.annexes)]

/-! The task executor `process_text`. -/

/-- Body of the `try:` block of `process_text`: perform the call; a raised
exception propagates as `error`; a streaming response raises
`ValueError("Streaming response not supported")`; otherwise the content is
validated into `Sections` (raising on failure) and the singleton mapping
`{doc_id: sections}` is returned. -/
def process_text_tryBlock (text_document : TextDocument) (call : CallResult) :
    Except String (String × Sections) :=
  match call with
  | .exn e => .error e
  | .ok .stream => .error "Streaming response not supported"
  | .ok (.modelResponse content) =>
    match sections_model_validate_json content with
    | .error e => .error e
    | .ok secs => .ok (text_document.doc_id, secs)

/-- One attempt of `process_text` as the decorated function sees it: the
`except Exception` clause converts every error of the try block into a
logged `None` return, so the attempt itself never raises. -/
def process_text_body (text_document : TextDocument) (call : CallResult) :
    Option (String × Sections) :=
  match process_text_tryBlock text_document call with
  | .ok r => some r
  | .error _ => none

/-- Backoff delay of tenacity's `wait_exponential(multiplier=1, min=4, max=10)`
after a failed attempt (tenacity 8.x: `multiplier * 2 ** attempt_number`,
clamped into `[min, max]`). -/
def waitExponential (multiplier mn mx attemptNumber : Nat) : Nat :=
  max (max 0 mn) (min (multiplier * 2 ^ attemptNumber) mx)

/-- Execution of a tenacity-retried function `f` starting at a 1-based
attempt number with a given number of remaining retries: a normal return
stops immediately, a raised exception consumes a retry (recording the
backoff sleep) until the retry budget is exhausted.  Returns the final
result, the number of attempts performed, and the list of sleeps. -/
def tenacityAttempts {α : Type} (f : Nat → Except String α) :
    Nat → Nat → Except String α × Nat × List Nat
  | attempt, 0 => (f attempt, attempt, [])
  | attempt, remaining + 1 =>
    match f attempt with
    | .ok a => (.ok a, attempt, [])
    | .error _ =>
      let rest := tenacityAttempts f (attempt + 1) remaining
      (rest.1, rest.2.1, waitExponential 1 4 10 attempt :: rest.2.2)

/-- The decorated `process_text`: tenacity with `stop_after_attempt(3)`
around the body, whose per-attempt call outcome is supplied by the oracle
`call`.  Because the body catches its own exceptions and returns an
`Option`, each attempt is a normal return in tenacity's eyes. -/
def process_text (text_document : TextDocument) (call : Nat → CallResult) :
    Except String (Option (String × Sections)) × Nat × List Nat :=
  tenacityAttempts (fun n => .ok (process_text_body text_document (call n))) 1 (3 - 1)

/-! The result store and the batch coordinator. -/

/-- Persisted result store: the JSON object of the output file, document
identifier to dumped section set, in insertion order. -/
abbrev ResultStore := List (String × Json)

/-- Key lookup in the store (`doc_id in headings_data` and reads). -/
def storeLookup : ResultStore → String → Option Json
  | [], _ => none
  | (k', v) :: rest, k => if k' = k then some v else storeLookup rest k

/-- Python dict assignment `headings_data[doc_id] = ...`: an existing key
keeps its position and gets the new value, a new key is appended. -/
def storeInsert : ResultStore → String → Json → ResultStore
  | [], k, v => [(k, v)]
  | (k', v') :: rest, k, v =>
    if k' = k then (k, v) :: rest else (k', v') :: storeInsert rest k v

/-- Parse loop over the input file content: each entry is validated inside
try/except; entries failing validation are logged and dropped, the rest
are collected in order. -/
def parsePublications (content : List Json) : List TextPublication :=
  content.filterMap (fun p => (validateTextPublication p).toOption)

/-- Collection of all documents from all publications that have no
existing entry in the store (the pending set `all_documents`). -/
def pendingDocuments (existing_headings : ResultStore)
    (publications : List TextPublication) : List TextDocument :=
  (publications.flatMap (fun pub => pub.documents)).filter
    (fun doc => (storeLookup existing_headings doc.doc_id).isNone)

/-- Results of `asyncio.gather` over the per-document tasks: each task's
value in order; an exception escaping a task would propagate out of the
gather (`Except.error`). -/
def gatherResults (calls : TextDocument → Nat → CallResult)
    (docs : List TextDocument) :
    Except String (List (Option (String × Sections))) :=
  docs.mapM (fun doc => (process_text doc (calls doc)).1)

/-- Merge loop: starting from the existing data, store each successful
result's dumped section set under its document identifier. -/
def mergeResults (existing : ResultStore) (results : List (String × Sections)) :
    ResultStore :=
  results.foldl (fun st r => storeInsert st r.1 r.2.dump) existing

/-- Observable outputs of one batch run. -/
structure RunOutput where
  publications : List TextPublication
  all_documents : List TextDocument
  headings_data : ResultStore
  failed_docs : List String
deriving Repr

/-- The workflow `process_documents_concurrently`, with the file system
and network abstracted: `existing_headings` is the loaded store (the empty
list when the output file does not exist), `content` the parsed input
file, and `calls` the oracle for each document's attempts.  Parses
publications (dropping malformed entries), computes the pending set,
gathers all task results, filters out `None`, merges into the store,
and computes the failed-document report. -/
def process_documents_concurrently (existing_headings : ResultStore)
    (content : List Json) (calls : TextDocument → Nat → CallResult) :
    Except String RunOutput := do
  let publications := parsePublications content
  let all_documents := pendingDocuments existing_headings publications
  let results ← gatherResults calls all_documents
  let successes := results.filterMap id
  let headings_data := mergeResults existing_headings successes
  let failed_docs := (all_documents.filter
    (fun doc => (storeLookup headings_data doc.doc_id).isNone)).map
    (fun doc => doc.doc_id)
  pure { publications := publications, all_documents := all_documents,
         headings_data := headings_data, failed_docs := failed_docs }

/-! Concurrency model of the semaphore-guarded task pool.

`process_with_semaphore` wraps each document's `process_text` call in
`async with semaphore:`, where `semaphore = asyncio.Semaphore(max_concurrency)`.
We model the pool as a labelled transition system: each task is `waiting`
until admitted, `running` while it holds a permit and its call is in
flight, and `done o` once `process_text` returns the outcome `o` — the
`async with` block releases the permit on that exit whatever `o` is. -/

/-- Phase of one scheduled task: waiting at the gate, holding a permit
with its call in flight, or finished with its returned outcome. -/
inductive TaskPhase where
  | waiting : TaskPhase
  | running : TaskPhase
  | done : Option (String × Sections) → TaskPhase
deriving Repr, DecidableEq

/-- Number of tasks currently inside the semaphore (calls in flight). -/
def countRunning : List TaskPhase → Nat
  | [] => 0
  | TaskPhase.running :: rest => countRunning rest + 1
  | _ :: rest => countRunning rest

/-- Contribution of one phase to `countRunning`. -/
def runningWeight : TaskPhase → Nat
  | TaskPhase.running => 1
  | _ => 0

/-- State of the pool: free permits of the semaphore plus the phase of
every task. -/
structure SemState where
  available : Nat
  tasks : List TaskPhase
deriving Repr, DecidableEq

/-- One scheduler step: a waiting task is admitted when a permit is free
(`acquire` decrements the counter), or a running task's `process_text`
returns outcome `o` and the `async with` exit releases its permit —
on every exit path, success (`some`) and failure (`none`) alike. -/
inductive SemStep : SemState → SemState → Prop where
  | acquire (a : Nat) (ts : List TaskPhase) (i : Nat)
      (h : ts[i]? = some TaskPhase.waiting) :
      SemStep ⟨a + 1, ts⟩ ⟨a, ts.set i TaskPhase.running⟩
  | finish (a : Nat) (ts : List TaskPhase) (i : Nat)
      (o : Option (String × Sections))
      (h : ts[i]? = some TaskPhase.running) :
      SemStep ⟨a, ts⟩ ⟨a + 1, ts.set i (TaskPhase.done o)⟩

/-- Initial state of a batch: `Semaphore(n)` with all `k` tasks waiting. -/
def semInit (n k : Nat) : SemState :=
  { available := n, tasks := List.replicate k TaskPhase.waiting }

/-- States the pool can reach from the start of a batch run. -/
def semReachable (n k : Nat) (s : SemState) : Prop :=
  Relation.ReflTransGen SemStep (semInit n k) s

/-- Outcome of one document's task in a run: because the body of
`process_text` returns normally on every path, tenacity accepts the very
first attempt, so the task's value is the body applied to attempt 1. -/
def outcome1 (calls : TextDocument → Nat → CallResult) (doc : TextDocument) :
    Option (String × Sections) :=
  process_text_body doc (calls doc 1)

/-- Explicit form of the observable outputs of one batch run. -/
def mkRunOutput (existing_headings : ResultStore) (content : List Json)
    (calls : TextDocument → Nat → CallResult) : RunOutput :=
  let publications := parsePublications content
  let all_documents := pendingDocuments existing_headings publications
  let headings_data :=
    mergeResults existing_headings ((all_documents.map (outcome1 calls)).filterMap id)
  { publications := publications
    all_documents := all_documents
    headings_data := headings_data
    failed_docs := (all_documents.filter
      (fun doc => (storeLookup headings_data doc.doc_id).isNone)).map
      (fun doc => doc.doc_id) }

/-- Successful outcomes of one run's task list, in task order. -/
def runSuccesses (existing_headings : ResultStore) (content : List Json)
    (calls : TextDocument → Nat → CallResult) : List (String × Sections) :=
  ((pendingDocuments existing_headings (parsePublications content)).map
    (outcome1 calls)).filterMap id

/-- The merged store produced by one run. -/
def runStore (existing_headings : ResultStore) (content : List Json)
    (calls : TextDocument → Nat → CallResult) : ResultStore :=
  mergeResults existing_headings (runSuccesses existing_headings content calls)

/-- Per-identifier reading of the spec's merge rule, written from the
spec's words for comparison with the code's `mergeResults`: start from
`existingResults`; for each `Success(id, sectionSet)` among the outcomes,
insert or overwrite the entry for `id` (a later success for the same
identifier wins); failures contribute nothing; any identifier not among
the successes keeps its existing binding. -/
def mergeSpecLookup (existing : ResultStore)
    (outcomes : List (Option (String × Sections))) (k : String) : Option Json :=
  match lastAssoc (outcomes.filterMap id) k with
  | some s => some s.dump
  | none => storeLookup existing k

/-! Concrete fixtures reused by witnesses and counterexamples. -/

/-- The `Sections` value with every optional range absent. -/
def sectionsAllNone : Sections :=
  { front_matter := none, contents := none, list_of_figures := none,
    list_of_tables := none, body := none, references := none,
    end_notes := none, annexes := none }

/-- A reply payload carrying all eight keys, each explicitly `null`. -/
def sectionsAllNullJson : Json :=
  Json.jobj (sectionKeys.map (fun k => (k, Json.null)))

/-- Input-file entry for one publication with the given documents. -/
def pubObj (pid : String) (docIds : List String) : Json :=
  Json.jobj [("pub_id", Json.jstr pid),
             ("documents", Json.jarr (docIds.map
               (fun d => Json.jobj [("doc_id", Json.jstr d)])))]

/-- A document named `d1` with no pages. -/
def docD1 : TextDocument := { doc_id := "d1", pages := [] }

/-- A document named `d2` with no pages. -/
def docD2 : TextDocument := { doc_id := "d2", pages := [] }

/-- Call oracle whose every call returns a valid all-null payload. -/
def okNullCalls : TextDocument → Nat → CallResult :=
  fun _ _ => CallResult.ok (LLMResponse.modelResponse (LLMContent.json sectionsAllNullJson))

/-- Call oracle raising a network error on every attempt for the given
document and answering a valid all-null payload for every other. -/
def failCallsFor (badId : String) : TextDocument → Nat → CallResult :=
  fun d _ =>
    if d.doc_id = badId then CallResult.exn "network error"
    else CallResult.ok (LLMResponse.modelResponse (LLMContent.json sectionsAllNullJson))

/-- Input collection in which two distinct publications each carry a
document with the same identifier `d1`. -/
def pendingDupContent : List Json :=
  [pubObj "p1" ["d1"], pubObj "p2" ["d1"]]

/-! Helper lemmas. -/

lemma countRunning_cons (p : TaskPhase) (l : List TaskPhase) :
    countRunning (p :: l) = countRunning l + runningWeight p := by
  cases p <;> simp [countRunning, runningWeight]

lemma countRunning_set (ts : List TaskPhase) (i : Nat) (x y : TaskPhase)
    (h : ts[i]? = some x) :
    countRunning (ts.set i y) + runningWeight x
      = countRunning ts + runningWeight y := by
  induction ts generalizing i with
  | nil => simp at h
  | cons t rest ih =>
    cases i with
    | zero =>
      simp only [List.getElem?_cons_zero, Option.some.injEq] at h
      subst h
      simp [List.set, countRunning_cons]
      omega
    | succ j =>
      simp only [List.getElem?_cons_succ] at h
      simp only [List.set, countRunning_cons]
      have := ih j h
      omega

lemma countRunning_replicate_waiting (k : Nat) :
    countRunning (List.replicate k TaskPhase.waiting) = 0 := by
  induction k with
  | zero => rfl
  | succ m ih => simpa [List.replicate, countRunning] using ih

lemma semReachable_invariant (n k : Nat) (s : SemState)
    (h : semReachable n k s) :
    s.available + countRunning s.tasks = n := by
  induction h with
  | refl => simp [semInit, countRunning_replicate_waiting]
  | tail _ step ih =>
    cases step with
    | acquire a ts i hget =>
      have hc := countRunning_set ts i TaskPhase.waiting TaskPhase.running hget
      simp [runningWeight] at hc ih ⊢
      omega
    | finish a ts i o hget =>
      have hc := countRunning_set ts i TaskPhase.running (TaskPhase.done o) hget
      simp [runningWeight] at hc ih ⊢
      omega

lemma process_text_eq (doc : TextDocument) (call : Nat → CallResult) :
    process_text doc call = (.ok (process_text_body doc (call 1)), 1, []) := rfl

lemma gatherResults_eq (calls : TextDocument → Nat → CallResult)
    (docs : List TextDocument) :
    gatherResults calls docs = .ok (docs.map (outcome1 calls)) := by
  induction docs with
  | nil => rfl
  | cons d ds ih =>
    simp only [gatherResults, List.mapM_cons, process_text_eq] at ih ⊢
    rw [ih]
    rfl

lemma run_eq (existing_headings : ResultStore) (content : List Json)
    (calls : TextDocument → Nat → CallResult) :
    process_documents_concurrently existing_headings content calls
      = .ok (mkRunOutput existing_headings content calls) := by
  simp only [process_documents_concurrently, mkRunOutput, gatherResults_eq]
  rfl

lemma storeLookup_insert_self (st : ResultStore) (k : String) (v : Json) :
    storeLookup (storeInsert st k v) k = some v := by
  induction st with
  | nil => simp [storeInsert, storeLookup]
  | cons p rest ih =>
    by_cases h : p.1 = k
    · simp [storeInsert, storeLookup, h]
    · simp [storeInsert, storeLookup, h, ih]

lemma storeLookup_insert_ne (st : ResultStore) (k k0 : String) (v : Json)
    (h : k ≠ k0) :
    storeLookup (storeInsert st k v) k0 = storeLookup st k0 := by
  induction st with
  | nil => simp [storeInsert, storeLookup, h]
  | cons p rest ih =>
    by_cases hp : p.1 = k
    · simp [storeInsert, storeLookup, hp, h]
    · simp [storeInsert, storeLookup, hp, ih]

lemma storeLookup_mergeResults (existing : ResultStore)
    (results : List (String × Sections)) (k : String) :
    storeLookup (mergeResults existing results) k
      = match lastAssoc results k with
        | some s => some s.dump
        | none => storeLookup existing k := by
  induction results generalizing existing with
  | nil => rfl
  | cons r rest ih =>
    have hfold : mergeResults existing (r :: rest)
        = mergeResults (storeInsert existing r.1 r.2.dump) rest := rfl
    rw [hfold, ih]
    cases hrest : lastAssoc rest k with
    | some s => simp [lastAssoc, hrest]
    | none =>
      by_cases hk : r.1 = k
      · subst hk
        simp [lastAssoc, hrest, storeLookup_insert_self]
      · simp [lastAssoc, hrest, hk, storeLookup_insert_ne _ _ _ _ hk]

lemma lastAssoc_eq_none_iff {α : Type} (l : List (String × α)) (k : String) :
    lastAssoc l k = none ↔ ∀ p ∈ l, p.1 ≠ k := by
  induction l with
  | nil => simp [lastAssoc]
  | cons q rest ih =>
    cases hrest : lastAssoc rest k with
    | some s =>
      have hne : ¬ (∀ p ∈ rest, p.1 ≠ k) := by
        intro hall
        rw [ih.mpr hall] at hrest
        cases hrest
      simp only [lastAssoc, hrest]
      constructor
      · intro h; cases h
      · intro hall
        exact absurd (fun p hp => hall p (List.mem_cons_of_mem q hp)) hne
    | none =>
      simp only [lastAssoc, hrest]
      constructor
      · intro h
        intro p hp
        rcases List.mem_cons.mp hp with rfl | hmem
        · intro hk; simp [hk] at h
        · exact (ih.mp hrest) p hmem
      · intro h
        have : q.1 ≠ k := h q (List.mem_cons_self q rest)
        simp [this]

lemma process_text_tryBlock_ok_key (doc : TextDocument) (c : CallResult)
    (p : String × Sections) (h : process_text_tryBlock doc c = .ok p) :
    p.1 = doc.doc_id := by
  cases c with
  | exn e => simp [process_text_tryBlock] at h
  | ok resp =>
    cases resp with
    | stream => simp [process_text_tryBlock] at h
    | modelResponse content =>
      simp only [process_text_tryBlock] at h
      cases hv : sections_model_validate_json content with
      | error e => rw [hv] at h; cases h
      | ok secs =>
        rw [hv] at h
        injection h with h2
        rw [← h2]

lemma outcome1_key (calls : TextDocument → Nat → CallResult)
    (doc : TextDocument) (p : String × Sections)
    (h : outcome1 calls doc = some p) : p.1 = doc.doc_id := by
  unfold outcome1 process_text_body at h
  cases ht : process_text_tryBlock doc (calls doc 1) with
  | error e => rw [ht] at h; cases h
  | ok r =>
    rw [ht] at h
    injection h with h2
    subst h2
    exact process_text_tryBlock_ok_key doc (calls doc 1) _ ht

lemma lastAssoc_of_mem {α : Type} (l : List (String × α)) (k : String)
    (p : String × α) (hmem : p ∈ l) (hk : p.1 = k) :
    ∃ v, lastAssoc l k = some v := by
  cases hla : lastAssoc l k with
  | some v => exact ⟨v, rfl⟩
  | none => exact absurd hk ((lastAssoc_eq_none_iff l k).mp hla p hmem)

lemma mem_successes (calls : TextDocument → Nat → CallResult)
    (docs : List TextDocument) (p : String × Sections)
    (h : p ∈ (docs.map (outcome1 calls)).filterMap id) :
    ∃ doc ∈ docs, outcome1 calls doc = some p := by
  rcases List.mem_filterMap.mp h with ⟨o, ho, hid⟩
  rcases List.mem_map.mp ho with ⟨doc, hdoc, rfl⟩
  exact ⟨doc, hdoc, by simpa using hid⟩

lemma sectionsValidateFields_ok_keys (fields : List (String × Json)) (s : Sections)
    (h : sectionsValidateFields fields = .ok s) :
    ∀ k ∈ sectionKeys, lastAssoc fields k ≠ none := by
  intro k hk hnone
  unfold sectionsValidateFields at h
  split at h
  · rename_i fm c lof lot b r en ax hfm hc hlof hlot hb hr hen hax
    have hbad : validateOptRange none = .error "Field required" := rfl
    simp only [sectionKeys, List.mem_cons, List.mem_singleton] at hk
    rcases hk with rfl | rfl | rfl | rfl | rfl | rfl | rfl | hk
    · rw [hnone, hbad] at hfm; cases hfm
    · rw [hnone, hbad] at hc; cases hc
    · rw [hnone, hbad] at hlof; cases hlof
    · rw [hnone, hbad] at hlot; cases hlot
    · rw [hnone, hbad] at hb; cases hb
    · rw [hnone, hbad] at hr; cases hr
    · rw [hnone, hbad] at hen; cases hen
    · rcases hk with rfl | hk
      · rw [hnone, hbad] at hax; cases hax
      · cases hk
  · cases h

lemma mem_pendingDocuments (existing : ResultStore)
    (pubs : List TextPublication) (d : TextDocument) :
    d ∈ pendingDocuments existing pubs ↔
      d ∈ pubs.flatMap (fun pub => pub.documents) ∧
        storeLookup existing d.doc_id = none := by
  simp [pendingDocuments, List.mem_filter, Option.isNone_iff_eq_none]

lemma process_text_body_of_exn (doc : TextDocument) (e : String) :
    process_text_body doc (CallResult.exn e) = none := rfl

lemma process_text_body_of_validate_error (doc : TextDocument)
    (content : LLMContent) (e : String)
    (h : sections_model_validate_json content = .error e) :
    process_text_body doc (CallResult.ok (LLMResponse.modelResponse content)) = none := by
  unfold process_text_body
  simp only [process_text_tryBlock]
  rw [h]

lemma process_text_body_of_validate_ok (doc : TextDocument)
    (content : LLMContent) (s : Sections)
    (h : sections_model_validate_json content = .ok s) :
    process_text_body doc (CallResult.ok (LLMResponse.modelResponse content))
      = some (doc.doc_id, s) := by
  unfold process_text_body
  simp only [process_text_tryBlock]
  rw [h]

lemma success_mem_S (calls : TextDocument → Nat → CallResult)
    (docs : List TextDocument) (d : TextDocument) (p : String × Sections)
    (hd : d ∈ docs) (ho : outcome1 calls d = some p) :
    p ∈ (docs.map (outcome1 calls)).filterMap id := by
  apply List.mem_filterMap.mpr
  exact ⟨some p, by rw [← ho]; exact List.mem_map_of_mem (outcome1 calls) hd, rfl⟩

lemma storeLookup_merge_none (existing : ResultStore)
    (results : List (String × Sections)) (k : String)
    (h : storeLookup (mergeResults existing results) k = none) :
    lastAssoc results k = none ∧ storeLookup existing k = none := by
  rw [storeLookup_mergeResults] at h
  cases hla : lastAssoc results k with
  | some s => rw [hla] at h; cases h
  | none => rw [hla] at h; exact ⟨rfl, h⟩

lemma storeLookup_merge_of_lastAssoc_none (existing : ResultStore)
    (results : List (String × Sections)) (k : String)
    (h : lastAssoc results k = none) :
    storeLookup (mergeResults existing results) k = storeLookup existing k := by
  rw [storeLookup_mergeResults, h]

lemma storeLookup_merge_of_lastAssoc_some (existing : ResultStore)
    (results : List (String × Sections)) (k : String) (s : Sections)
    (h : lastAssoc results k = some s) :
    storeLookup (mergeResults existing results) k = some s.dump := by
  rw [storeLookup_mergeResults, h]

/-! Claim theorems. -/

/-- C1: the claim asserts that an item whose classification call fails on
every attempt is attempted exactly 3 times with exponential backoff before
yielding a Failure.  The code does not do this: the try/except inside
`process_text` converts every exception into a `None` return before
tenacity can observe it, so the decorated function performs exactly one
attempt, sleeps zero times, and returns the Failure value `None` — even
when every attempt of the call would raise. -/
theorem process_text_single_attempt_on_total_failure
    (doc : TextDocument) (e : String) :
    process_text doc (fun _ => CallResult.exn e)
      = (Except.ok none, 1, []) := rfl

/-- C2: `process_text` never propagates an exception to its caller: for
every call oracle its result is a normal return (`Except.ok`), and
whenever the try block fails — network error, streaming response,
unparseable or invalid payload — the returned value is the Failure
outcome `None`. -/
theorem process_text_never_propagates (doc : TextDocument)
    (call : Nat → CallResult) :
    (∃ o, (process_text doc call).1 = Except.ok o) ∧
    (∀ e, process_text_tryBlock doc (call 1) = Except.error e →
      (process_text doc call).1 = Except.ok none) := by
  constructor
  · exact ⟨process_text_body doc (call 1), by rw [process_text_eq]⟩
  · intro e he
    rw [process_text_eq]
    unfold process_text_body
    rw [he]

theorem process_text_never_propagates_witness :
    (process_text docD1 (fun _ => CallResult.exn "boom")).1 = Except.ok none :=
  (process_text_never_propagates docD1 (fun _ => CallResult.exn "boom")).2 "boom" rfl

/-- C3: the merge step agrees, identifier by identifier, with the spec's
merge rule (`mergeSpecLookup`): each success inserts or overwrites its
identifier, failures contribute nothing; in particular every entry of the
existing store whose identifier is not among the successes is retained
unchanged. -/
theorem merge_nondestructive (E : ResultStore)
    (O : List (Option (String × Sections))) (k : String) :
    storeLookup (mergeResults E (O.filterMap id)) k = mergeSpecLookup E O k ∧
    ((∀ p ∈ O.filterMap id, p.1 ≠ k) →
      storeLookup (mergeResults E (O.filterMap id)) k = storeLookup E k) := by
  constructor
  · rw [storeLookup_mergeResults]; rfl
  · intro hnot
    exact storeLookup_merge_of_lastAssoc_none _ _ _
      ((lastAssoc_eq_none_iff _ _).mpr hnot)

theorem merge_nondestructive_witness :
    storeLookup (mergeResults [("d1", Json.jstr "v")]
        ([none, some ("d2", sectionsAllNone)].filterMap id)) "d1"
      = storeLookup [("d1", Json.jstr "v")] "d1" :=
  (merge_nondestructive [("d1", Json.jstr "v")]
    [none, some ("d2", sectionsAllNone)] "d1").2 (by decide)

/-- C5: in every state the semaphore-guarded pool can reach from the
start of a batch with capacity `n`, at most `n` tasks are inside the gate
at once, and the free permits and in-flight tasks always account for the
full capacity — each `finish` transition (any outcome, success or
failure) returns its unit of capacity. -/
theorem semaphore_bounded_concurrency (n k : Nat) (s : SemState)
    (h : semReachable n k s) :
    countRunning s.tasks ≤ n ∧ s.available + countRunning s.tasks = n := by
  have hinv := semReachable_invariant n k s h
  exact ⟨by omega, hinv⟩

theorem semaphore_bounded_concurrency_witness :
    countRunning [TaskPhase.running, TaskPhase.waiting] ≤ 5 ∧
      4 + countRunning [TaskPhase.running, TaskPhase.waiting] = 5 :=
  semaphore_bounded_concurrency 5 2
    { available := 4, tasks := [TaskPhase.running, TaskPhase.waiting] }
    (Relation.ReflTransGen.single
      (SemStep.acquire 4 [TaskPhase.waiting, TaskPhase.waiting] 0 rfl))

/-- C9 counterexample: the claim asserts that at most one item per
identifier appears in the pending set even when the source yields
duplicates.  With an empty existing store and two publications each
carrying a document `d1`, the computed pending set holds two items with
identifier `d1`. -/
theorem pending_duplicates_counterexample :
    (pendingDocuments [] (parsePublications pendingDupContent)).map
        (fun d => d.doc_id) = ["d1", "d1"] ∧
      ¬ ((pendingDocuments [] (parsePublications pendingDupContent)).map
          (fun d => d.doc_id)).Nodup := by
  constructor
  · rfl
  · decide

/-- C9 (amended): the pending set is the flattened document list filtered
by absence from the existing store, so duplicate identifiers in the
source pass through; whenever the flattened input's identifiers are
duplicate-free — the data model's declared uniqueness assumption — the
pending identifiers are duplicate-free as well. -/
theorem pending_nodup_of_unique_input (existing : ResultStore)
    (pubs : List TextPublication)
    (h : ((pubs.flatMap (fun pub => pub.documents)).map
      (fun d => d.doc_id)).Nodup) :
    ((pendingDocuments existing pubs).map (fun d => d.doc_id)).Nodup := by
  have hsub : List.Sublist
      ((pendingDocuments existing pubs).map (fun d => d.doc_id))
      ((pubs.flatMap (fun pub => pub.documents)).map (fun d => d.doc_id)) :=
    List.Sublist.map _ (List.filter_sublist _)
  exact List.Nodup.sublist hsub h

theorem pending_nodup_of_unique_input_witness :
    ((pendingDocuments [] [{ pub_id := "p1", documents := [docD1] },
        { pub_id := "p2", documents := [docD2] }]).map
      (fun d => d.doc_id)).Nodup :=
  pending_nodup_of_unique_input [] _ (by decide)

/-- C10: validation of the structured result requires all eight section
keys to be present: a payload omitting any one of them fails validation,
and `process_text` on such a reply returns the Failure outcome `None`;
a payload carrying all eight keys with `null` values validates. -/
theorem sections_requires_all_keys (doc : TextDocument)
    (fields : List (String × Json)) (k : String)
    (hk : k ∈ sectionKeys) (hmiss : ∀ p ∈ fields, p.1 ≠ k) :
    (∃ e, sectionsValidate (Json.jobj fields) = Except.error e) ∧
    process_text doc
        (fun _ => CallResult.ok (LLMResponse.modelResponse
          (LLMContent.json (Json.jobj fields))))
      = (Except.ok none, 1, []) ∧
    sectionsValidate sectionsAllNullJson = Except.ok sectionsAllNone := by
  have hnone : lastAssoc fields k = none :=
    (lastAssoc_eq_none_iff fields k).mpr hmiss
  have herr : ∃ e, sectionsValidateFields fields = Except.error e := by
    cases hv : sectionsValidateFields fields with
    | error e => exact ⟨e, rfl⟩
    | ok s => exact absurd hnone (sectionsValidateFields_ok_keys fields s hv k hk)
  rcases herr with ⟨e, he⟩
  refine ⟨⟨e, he⟩, ?_, rfl⟩
  have hb := process_text_body_of_validate_error doc
    (LLMContent.json (Json.jobj fields)) e he
  simp only [process_text_eq, hb]

theorem sections_requires_all_keys_witness :
    (∃ e, sectionsValidate (Json.jobj
        [("front_matter", Json.null), ("contents", Json.null),
         ("list_of_figures", Json.null), ("list_of_tables", Json.null),
         ("references", Json.null), ("end_notes", Json.null),
         ("annexes", Json.null)]) = Except.error e) ∧
    process_text docD1
        (fun _ => CallResult.ok (LLMResponse.modelResponse
          (LLMContent.json (Json.jobj
            [("front_matter", Json.null), ("contents", Json.null),
             ("list_of_figures", Json.null), ("list_of_tables", Json.null),
             ("references", Json.null), ("end_notes", Json.null),
             ("annexes", Json.null)]))))
      = (Except.ok none, 1, []) ∧
    sectionsValidate sectionsAllNullJson = Except.ok sectionsAllNone :=
  sections_requires_all_keys docD1
    [("front_matter", Json.null), ("contents", Json.null),
     ("list_of_figures", Json.null), ("list_of_tables", Json.null),
     ("references", Json.null), ("end_notes", Json.null),
     ("annexes", Json.null)] "body" (by decide) (by decide)

lemma second_run_all_fail (E : ResultStore) (c : List Json)
    (f : TextDocument → Nat → CallResult) (d : TextDocument)
    (hd : d ∈ pendingDocuments (runStore E c f) (parsePublications c)) :
    outcome1 f d = none := by
  obtain ⟨hdflat, hdnone⟩ := (mem_pendingDocuments _ _ _).mp hd
  obtain ⟨hla1, hex⟩ :=
    storeLookup_merge_none E (runSuccesses E c f) d.doc_id hdnone
  have hdp1 : d ∈ pendingDocuments E (parsePublications c) :=
    (mem_pendingDocuments _ _ _).mpr ⟨hdflat, hex⟩
  by_contra hne
  obtain ⟨p, hp⟩ := Option.ne_none_iff_exists'.mp hne
  have hmem : p ∈ runSuccesses E c f := success_mem_S f _ d p hdp1 hp
  have hkey := outcome1_key f d p hp
  obtain ⟨v, hv⟩ := lastAssoc_of_mem (runSuccesses E c f) d.doc_id p hmem hkey
  rw [hv] at hla1
  cases hla1

lemma runSuccesses_second_run_nil (E : ResultStore) (c : List Json)
    (f : TextDocument → Nat → CallResult) :
    runSuccesses (runStore E c f) c f = [] := by
  apply List.filterMap_eq_nil_iff.mpr
  intro o ho
  rcases List.mem_map.mp ho with ⟨d, hd, rfl⟩
  simpa using second_run_all_fail E c f d hd

lemma runStore_idem (E : ResultStore) (c : List Json)
    (f : TextDocument → Nat → CallResult) :
    runStore (runStore E c f) c f = runStore E c f := by
  show mergeResults (runStore E c f) (runSuccesses (runStore E c f) c f)
    = runStore E c f
  rw [runSuccesses_second_run_nil]
  rfl

lemma second_run_pending_empty (E : ResultStore) (c : List Json)
    (f : TextDocument → Nat → CallResult)
    (hsucc : ∀ d ∈ pendingDocuments E (parsePublications c), outcome1 f d ≠ none) :
    pendingDocuments (runStore E c f) (parsePublications c) = [] := by
  unfold pendingDocuments
  apply List.filter_eq_nil_iff.mpr
  intro d hdflat
  simp only [Option.isNone_iff_eq_none, Bool.not_eq_true]
  intro hdnone
  cases he : storeLookup E d.doc_id with
  | some v =>
    cases hla : lastAssoc (runSuccesses E c f) d.doc_id with
    | some s =>
      have := storeLookup_merge_of_lastAssoc_some E _ d.doc_id s hla
      rw [show storeLookup (runStore E c f) d.doc_id
        = storeLookup (mergeResults E (runSuccesses E c f)) d.doc_id from rfl, this] at hdnone
      cases hdnone
    | none =>
      have := storeLookup_merge_of_lastAssoc_none E _ d.doc_id hla
      rw [show storeLookup (runStore E c f) d.doc_id
        = storeLookup (mergeResults E (runSuccesses E c f)) d.doc_id from rfl, this, he] at hdnone
      cases hdnone
  | none =>
    have hdp : d ∈ pendingDocuments E (parsePublications c) :=
      (mem_pendingDocuments _ _ _).mpr ⟨hdflat, he⟩
    obtain ⟨p, hp⟩ := Option.ne_none_iff_exists'.mp (hsucc d hdp)
    have hmem : p ∈ runSuccesses E c f := success_mem_S f _ d p hdp hp
    have hkey := outcome1_key f d p hp
    obtain ⟨v, hv⟩ := lastAssoc_of_mem (runSuccesses E c f) d.doc_id p hmem hkey
    have := storeLookup_merge_of_lastAssoc_some E _ d.doc_id v hv
    rw [show storeLookup (runStore E c f) d.doc_id
      = storeLookup (mergeResults E (runSuccesses E c f)) d.doc_id from rfl, this] at hdnone
    cases hdnone

/-- C4: any identifier present in the loaded store at batch start is
excluded from the pending set (never re-processed) and its entry is
unchanged in the final store, whatever the input collection holds for
that identifier. -/
theorem resume_preserves_existing (existing : ResultStore) (content : List Json)
    (calls : TextDocument → Nat → CallResult) (out : RunOutput)
    (id0 : String) (v : Json)
    (hrun : process_documents_concurrently existing content calls = Except.ok out)
    (hin : storeLookup existing id0 = some v) :
    id0 ∉ out.all_documents.map (fun d => d.doc_id) ∧
    storeLookup out.headings_data id0 = some v := by
  rw [run_eq] at hrun
  have hout : out = mkRunOutput existing content calls := (Except.ok.inj hrun).symm
  subst hout
  constructor
  · intro hmem
    rcases List.mem_map.mp hmem with ⟨d, hd, hdid⟩
    have hd2 : d ∈ pendingDocuments existing (parsePublications content) := hd
    have hlook := ((mem_pendingDocuments existing _ d).mp hd2).2
    rw [hdid, hin] at hlook
    cases hlook
  · show storeLookup (mergeResults existing (runSuccesses existing content calls)) id0
      = some v
    have hla : lastAssoc (runSuccesses existing content calls) id0 = none := by
      apply (lastAssoc_eq_none_iff _ _).mpr
      intro p hp hpk
      rcases mem_successes calls _ p hp with ⟨d, hd, hod⟩
      have hkey := outcome1_key calls d p hod
      have hlook := ((mem_pendingDocuments existing (parsePublications content) d).mp hd).2
      rw [← hkey, hpk, hin] at hlook
      cases hlook
    rw [storeLookup_merge_of_lastAssoc_none _ _ _ hla]
    exact hin

theorem resume_preserves_existing_witness :
    "d1" ∉ (mkRunOutput [("d1", Json.jstr "old")] [pubObj "p1" ["d1", "d2"]]
        okNullCalls).all_documents.map (fun d => d.doc_id) ∧
    storeLookup (mkRunOutput [("d1", Json.jstr "old")] [pubObj "p1" ["d1", "d2"]]
        okNullCalls).headings_data "d1" = some (Json.jstr "old") :=
  resume_preserves_existing [("d1", Json.jstr "old")] [pubObj "p1" ["d1", "d2"]]
    okNullCalls _ "d1" (Json.jstr "old") (run_eq _ _ _) rfl

/-- C6: in a batch whose pending items are A and B, where A's call fails
on every attempt and B's first attempt returns a valid payload, the final
store holds B's dumped result, holds no entry for A, and the failure
report lists exactly A's identifier. -/
theorem partial_failure_isolation (existing : ResultStore) (content : List Json)
    (calls : TextDocument → Nat → CallResult)
    (A B : TextDocument) (contentB : LLMContent) (sB : Sections) (out : RunOutput)
    (hpend : pendingDocuments existing (parsePublications content) = [A, B])
    (hA : ∀ n, ∃ e, calls A n = CallResult.exn e)
    (hB1 : calls B 1 = CallResult.ok (LLMResponse.modelResponse contentB))
    (hvB : sections_model_validate_json contentB = Except.ok sB)
    (hab : A.doc_id ≠ B.doc_id)
    (hrun : process_documents_concurrently existing content calls = Except.ok out) :
    storeLookup out.headings_data B.doc_id = some sB.dump ∧
    storeLookup out.headings_data A.doc_id = none ∧
    out.failed_docs = [A.doc_id] := by
  rw [run_eq] at hrun
  have hout : out = mkRunOutput existing content calls := (Except.ok.inj hrun).symm
  subst hout
  have hoA : outcome1 calls A = none := by
    rcases hA 1 with ⟨e, he⟩
    unfold outcome1
    rw [he]
    rfl
  have hoB : outcome1 calls B = some (B.doc_id, sB) := by
    unfold outcome1
    rw [hB1]
    exact process_text_body_of_validate_ok B contentB sB hvB
  have hAex : storeLookup existing A.doc_id = none := by
    have hmem : A ∈ pendingDocuments existing (parsePublications content) := by
      rw [hpend]; simp
    exact ((mem_pendingDocuments _ _ _).mp hmem).2
  have hS : runSuccesses existing content calls = [(B.doc_id, sB)] := by
    unfold runSuccesses
    rw [hpend]
    simp [hoA, hoB]
  have hlaB : lastAssoc [(B.doc_id, sB)] B.doc_id = some sB := by
    simp [lastAssoc]
  have hlaA : lastAssoc [(B.doc_id, sB)] A.doc_id = none := by
    simp [lastAssoc, Ne.symm hab]
  have hlookB : storeLookup (mergeResults existing [(B.doc_id, sB)]) B.doc_id
      = some sB.dump := storeLookup_merge_of_lastAssoc_some _ _ _ _ hlaB
  have hlookA : storeLookup (mergeResults existing [(B.doc_id, sB)]) A.doc_id
      = none := by
    rw [storeLookup_merge_of_lastAssoc_none _ _ _ hlaA]
    exact hAex
  refine ⟨?_, ?_, ?_⟩
  · show storeLookup (mergeResults existing (runSuccesses existing content calls))
      B.doc_id = some sB.dump
    rw [hS]
    exact hlookB
  · show storeLookup (mergeResults existing (runSuccesses existing content calls))
      A.doc_id = none
    rw [hS]
    exact hlookA
  · show ((pendingDocuments existing (parsePublications content)).filter
        (fun doc => (storeLookup (mergeResults existing
          (runSuccesses existing content calls)) doc.doc_id).isNone)).map
        (fun doc => doc.doc_id) = [A.doc_id]
    rw [hS, hpend]
    simp [List.filter, hlookA, hlookB]

theorem partial_failure_isolation_witness :
    storeLookup (mkRunOutput [] [pubObj "p1" ["d1", "d2"]]
        (failCallsFor "d1")).headings_data docD2.doc_id = some sectionsAllNone.dump ∧
    storeLookup (mkRunOutput [] [pubObj "p1" ["d1", "d2"]]
        (failCallsFor "d1")).headings_data docD1.doc_id = none ∧
    (mkRunOutput [] [pubObj "p1" ["d1", "d2"]] (failCallsFor "d1")).failed_docs
      = [docD1.doc_id] :=
  partial_failure_isolation [] [pubObj "p1" ["d1", "d2"]] (failCallsFor "d1")
    docD1 docD2 (LLMContent.json sectionsAllNullJson) sectionsAllNone _
    rfl (fun _ => ⟨"network error", rfl⟩) rfl rfl (by decide) (run_eq _ _ _)

/-- C7: with no external state change (same input collection, same call
oracle), a second batch run leaves the persisted store exactly as the
first run produced it; and when every pending item of the first run
succeeded, the second run's pending set is empty — zero items processed. -/
theorem idempotent_resume (existing : ResultStore) (content : List Json)
    (calls : TextDocument → Nat → CallResult) (out1 out2 : RunOutput)
    (h1 : process_documents_concurrently existing content calls = Except.ok out1)
    (h2 : process_documents_concurrently out1.headings_data content calls
      = Except.ok out2) :
    out2.headings_data = out1.headings_data ∧
    ((∀ d ∈ out1.all_documents, outcome1 calls d ≠ none) →
      out2.all_documents = []) := by
  rw [run_eq] at h1
  have hout1 : out1 = mkRunOutput existing content calls := (Except.ok.inj h1).symm
  subst hout1
  rw [run_eq] at h2
  have hout2 : out2 = mkRunOutput
      (mkRunOutput existing content calls).headings_data content calls :=
    (Except.ok.inj h2).symm
  subst hout2
  constructor
  · exact runStore_idem existing content calls
  · intro hsucc
    exact second_run_pending_empty existing content calls hsucc

theorem idempotent_resume_witness :
    (mkRunOutput (mkRunOutput [] [pubObj "p1" ["d1", "d2"]] okNullCalls).headings_data
        [pubObj "p1" ["d1", "d2"]] okNullCalls).headings_data
      = (mkRunOutput [] [pubObj "p1" ["d1", "d2"]] okNullCalls).headings_data :=
  (idempotent_resume [] [pubObj "p1" ["d1", "d2"]] okNullCalls _ _
    (run_eq _ _ _) (run_eq _ _ _)).1

/-- C8: one input entry failing publication validation is dropped from the
load: parsing the collection with the malformed entry equals parsing it
without, the whole batch run is unchanged (so every other valid item is
still loaded and processed), and every valid entry still appears among the
parsed publications. -/
theorem malformed_publication_dropped (existing : ResultStore)
    (ws1 ws2 : List Json) (bad : Json) (e : String)
    (calls : TextDocument → Nat → CallResult)
    (hbad : validateTextPublication bad = Except.error e) :
    parsePublications (ws1 ++ bad :: ws2) = parsePublications (ws1 ++ ws2) ∧
    process_documents_concurrently existing (ws1 ++ bad :: ws2) calls
      = process_documents_concurrently existing (ws1 ++ ws2) calls ∧
    (∀ j tp, j ∈ ws1 ++ ws2 → validateTextPublication j = Except.ok tp →
      tp ∈ parsePublications (ws1 ++ bad :: ws2)) := by
  have hparse : parsePublications (ws1 ++ bad :: ws2)
      = parsePublications (ws1 ++ ws2) := by
    unfold parsePublications
    simp [List.filterMap_append, List.filterMap_cons, hbad, Except.toOption]
  refine ⟨hparse, ?_, ?_⟩
  · unfold process_documents_concurrently
    rw [hparse]
  · intro j tp hj hok
    rw [hparse]
    unfold parsePublications
    apply List.mem_filterMap.mpr
    exact ⟨j, hj, by rw [hok]; rfl⟩

theorem malformed_publication_dropped_witness :
    parsePublications ([pubObj "p1" ["d1"]] ++ Json.jstr "oops" :: [pubObj "p2" ["d2"]])
      = parsePublications ([pubObj "p1" ["d1"]] ++ [pubObj "p2" ["d2"]]) ∧
    process_documents_concurrently [] ([pubObj "p1" ["d1"]] ++ Json.jstr "oops"
        :: [pubObj "p2" ["d2"]]) okNullCalls
      = process_documents_concurrently [] ([pubObj "p1" ["d1"]]
        ++ [pubObj "p2" ["d2"]]) okNullCalls ∧
    (∀ j tp, j ∈ [pubObj "p1" ["d1"]] ++ [pubObj "p2" ["d2"]] →
      validateTextPublication j = Except.ok tp →
      tp ∈ parsePublications ([pubObj "p1" ["d1"]] ++ Json.jstr "oops"
        :: [pubObj "p2" ["d2"]])) :=
  malformed_publication_dropped [] [pubObj "p1" ["d1"]] [pubObj "p2" ["d2"]]
    (Json.jstr "oops") "TextPublication expects an object" okNullCalls rfl
